import Mathlib

/-!
Shallow embedding of the RSVP registration engine of the Event platform
(server routes for create/update/delete/rsvp/unrsvp and the Event schema).

The database is modelled per event identifier: the state of one event record
is an `Option Event` (`none` when no event with that id exists).  The MongoDB
`findOneAndUpdate` calls are embedded as pure state transformers: the atomic
conditional update of the rsvp route becomes a single guarded update of the
record, and the follow-up diagnostic read of the same record observes the
same (sequential) state.  Participant and creator identifiers are strings
(the code compares ObjectIds after `String(...)` coercion).
-/

/-- The Event document (fields of the mongoose `eventSchema` relevant to the
registration engine; image payload fields are omitted). -/
structure Event where
  title : String
  description : String
  dateTime : String
  location : String
  category : String
  capacity : Nat
  attendees : List String
  createdBy : String
deriving Repr, DecidableEq

/-- Failure classification of a Join attempt (the four diagnostic branches of
the rsvp route). -/
inductive JoinReason where
  | NotFound
  | AlreadyJoined
  | Full
  | Conflict
deriving Repr, DecidableEq, Fintype

/-- Outcome of the rsvp route: success carries the attendee count and the
updated event projection, failure carries the reason and the response
message. -/
inductive JoinResult where
  | success (attendeeCount : Nat) (event : Event)
  | failure (reason : JoinReason) (message : String)
deriving Repr, DecidableEq

/-- Whether a Join outcome is a success. -/
def JoinResult.isSuccess : JoinResult → Bool
  | JoinResult.success _ _ => true
  | JoinResult.failure _ _ => false

/-- The stable message the rsvp route sends for each failure reason. -/
def joinMessage : JoinReason → String
  | JoinReason.NotFound => "Event not found"
  | JoinReason.AlreadyJoined => "You have already RSVPed to this event"
  | JoinReason.Full => "Event is already full"
  | JoinReason.Conflict => "Unable to RSVP. Please try again."

/-- MongoDB `$addToSet`: append the element if it is not already present. -/
def addToSet (l : List String) (x : String) : List String :=
  if x ∈ l then l else l ++ [x]

/-- MongoDB `$pull`: remove every occurrence of the element. -/
def pull (l : List String) (x : String) : List String :=
  l.filter (fun a => a ≠ x)

/-- The rsvp route.  One atomic conditional update
(`_id` matches AND `attendees ≠ userId` AND `size(attendees) < capacity`,
mutation `$addToSet attendees userId`); on a failed attempt a diagnostic
read classifies the failure as NotFound / AlreadyJoined / Full / Conflict,
in that order. -/
def rsvp (db : Option Event) (userId : String) : Option Event × JoinResult :=
  match db with
  | none => (none, JoinResult.failure JoinReason.NotFound "Event not found")
  | some ev =>
      if userId ∉ ev.attendees ∧ ev.attendees.length < ev.capacity then
        let updated : Event := { ev with attendees := addToSet ev.attendees userId }
        (some updated, JoinResult.success updated.attendees.length updated)
      else if userId ∈ ev.attendees then
        (some ev, JoinResult.failure JoinReason.AlreadyJoined
          "You have already RSVPed to this event")
      else if ev.capacity ≤ ev.attendees.length then
        (some ev, JoinResult.failure JoinReason.Full "Event is already full")
      else
        (some ev, JoinResult.failure JoinReason.Conflict
          "Unable to RSVP. Please try again.")

/-- Outcome of the unrsvp route. -/
inductive LeaveResult where
  | success (attendeeCount : Nat) (event : Event)
  | notFound (message : String)
deriving Repr, DecidableEq

/-- The unrsvp route: unconditionally `$pull` the user from the attendee
list of the matching event; NotFound only when the event does not exist. -/
def unrsvp (db : Option Event) (userId : String) : Option Event × LeaveResult :=
  match db with
  | none => (none, LeaveResult.notFound "Event not found")
  | some ev =>
      let updated : Event := { ev with attendees := pull ev.attendees userId }
      (some updated, LeaveResult.success updated.attendees.length updated)

/- Basic behaviour lemmas of a single rsvp step. -/

theorem rsvp_some_of_ok (ev : Event) (u : String)
    (hm : u ∉ ev.attendees) (hc : ev.attendees.length < ev.capacity) :
    rsvp (some ev) u =
      (some { ev with attendees := ev.attendees ++ [u] },
       JoinResult.success (ev.attendees.length + 1)
         { ev with attendees := ev.attendees ++ [u] }) := by
  simp [rsvp, addToSet, hm, hc]

theorem rsvp_some_of_mem (ev : Event) (u : String) (hm : u ∈ ev.attendees) :
    rsvp (some ev) u =
      (some ev, JoinResult.failure JoinReason.AlreadyJoined
        "You have already RSVPed to this event") := by
  simp [rsvp, hm]

theorem rsvp_some_of_full (ev : Event) (u : String)
    (hm : u ∉ ev.attendees) (hc : ev.capacity ≤ ev.attendees.length) :
    rsvp (some ev) u =
      (some ev, JoinResult.failure JoinReason.Full "Event is already full") := by
  simp [rsvp, hm, hc, Nat.not_lt.mpr hc]

theorem pull_of_not_mem (l : List String) (x : String) (h : x ∉ l) :
    pull l x = l := by
  apply List.filter_eq_self.mpr
  intro a ha
  simp only [decide_eq_true_eq]
  intro hax
  exact h (hax ▸ ha)

theorem not_mem_pull (l : List String) (x : String) : x ∉ pull l x := by
  simp [pull]

theorem pull_pull (l : List String) (x : String) :
    pull (pull l x) x = pull l x :=
  pull_of_not_mem _ _ (not_mem_pull l x)

theorem pull_append_singleton (l : List String) (x : String) :
    pull (l ++ [x]) x = pull l x := by
  simp [pull]

/-! ### Sequences of operations against one event

`joinTrace` replays a list of Join requests (one per participant identifier)
against an existing event, collecting each request's outcome; `opsTrace`
replays a mixed list of Join and Leave requests.  Both thread the stored
event record through the successive route calls. -/

/-- A registration request against one event. -/
inductive Op where
  | join (u : String)
  | leave (u : String)
deriving Repr, DecidableEq

/-- Outcome of one registration request. -/
inductive OpResult where
  | joined (r : JoinResult)
  | left (r : LeaveResult)
deriving Repr, DecidableEq

/-- Apply one request to the stored event record, returning the new record
state and the response. -/
def applyOp (ev : Event) : Op → Event × OpResult
  | Op.join u =>
      let s := rsvp (some ev) u
      (s.1.getD ev, OpResult.joined s.2)
  | Op.leave u =>
      let s := unrsvp (some ev) u
      (s.1.getD ev, OpResult.left s.2)

/-- Replay a mixed sequence of Join and Leave requests. -/
def opsTrace (ev : Event) : List Op → List OpResult × Event
  | [] => ([], ev)
  | o :: os =>
      let s := applyOp ev o
      let rest := opsTrace s.1 os
      (s.2 :: rest.1, rest.2)

/-- Replay a sequence of Join requests, pairing each requester with the
outcome of their request. -/
def joinTrace (ev : Event) : List String → List (String × JoinResult) × Event
  | [] => ([], ev)
  | u :: us =>
      let s := rsvp (some ev) u
      let rest := joinTrace (s.1.getD ev) us
      ((u, s.2) :: rest.1, rest.2)

/-- Number of requests of a Join trace that reported success. -/
def successCount (tr : List (String × JoinResult)) : Nat :=
  (tr.filter (fun e => e.2.isSuccess)).length

/-! ### Create, update and delete routes -/

/-- Body of a PUT update request; `none` stands for a field that is absent
(or empty, hence falsy in the route's `if (field)` guards).  `capacity` is
the parsed integer value of the capacity field. -/
structure UpdateBody where
  title : Option String := none
  description : Option String := none
  dateTime : Option String := none
  location : Option String := none
  category : Option String := none
  capacity : Option Int := none
deriving Repr, DecidableEq

/-- Outcome of the update route. -/
inductive UpdateResult where
  | notFound (message : String)
  | notAuthorized (message : String)
  | badRequest (message : String)
  | ok (event : Event)
deriving Repr, DecidableEq

/-- The non-capacity field assignments of the update route (each performed
only when the field is present). -/
def applyFields (ev : Event) (b : UpdateBody) : Event :=
  { ev with
    title := b.title.getD ev.title
    description := b.description.getD ev.description
    dateTime := b.dateTime.getD ev.dateTime
    location := b.location.getD ev.location
    category := b.category.getD ev.category }

/-- The PUT update route: 404 when the event does not exist, 403 when the
caller is not the creator; a present capacity value below 1 or below the
current attendee count aborts with 400 before anything is saved; otherwise
the modified document is saved. -/
def updateEvent (db : Option Event) (callerId : String) (b : UpdateBody) :
    Option Event × UpdateResult :=
  match db with
  | none => (none, UpdateResult.notFound "Event not found")
  | some ev =>
      if ev.createdBy ≠ callerId then
        (some ev, UpdateResult.notAuthorized "Not authorized to edit this event")
      else
        let ev1 := applyFields ev b
        match b.capacity with
        | none => (some ev1, UpdateResult.ok ev1)
        | some c =>
            if c < 1 then
              (some ev, UpdateResult.badRequest "Capacity must be a positive number")
            else if c < (ev.attendees.length : Int) then
              (some ev, UpdateResult.badRequest
                "Capacity cannot be less than current attendee count")
            else
              let ev2 : Event := { ev1 with capacity := c.toNat }
              (some ev2, UpdateResult.ok ev2)

/-- Outcome of the delete route. -/
inductive DeleteResult where
  | notFound (message : String)
  | notAuthorized (message : String)
  | deleted (message : String)
deriving Repr, DecidableEq

/-- The DELETE route: only the creator may delete; deletion removes the
record. -/
def deleteEvent (db : Option Event) (callerId : String) :
    Option Event × DeleteResult :=
  match db with
  | none => (none, DeleteResult.notFound "Event not found")
  | some ev =>
      if ev.createdBy ≠ callerId then
        (some ev, DeleteResult.notAuthorized "Not authorized to delete this event")
      else
        (none, DeleteResult.deleted "Event deleted")

/-- Outcome of the create route. -/
inductive CreateResult where
  | badRequest (message : String)
  | created (event : Event)
deriving Repr, DecidableEq

/-- The POST create route: all fields required (empty strings are falsy),
capacity must parse to an integer at least 1; the event starts with an
empty attendee list and the caller as creator. -/
def createEvent (userId title description dateTime location : String)
    (capacity : Option Int) : CreateResult :=
  if title = "" ∨ description = "" ∨ dateTime = "" ∨ location = "" ∨
      capacity = none then
    CreateResult.badRequest "All fields are required"
  else
    match capacity with
    | none => CreateResult.badRequest "All fields are required"
    | some c =>
        if c < 1 then
          CreateResult.badRequest "Capacity must be a positive number"
        else
          CreateResult.created
            { title := title
              description := description
              dateTime := dateTime
              location := location
              category := "General"
              capacity := c.toNat
              attendees := []
              createdBy := userId }


/-! ### Claim theorems: single-step Join and Leave behaviour -/

/-- C1: Join(eventId, participantId) succeeds iff, evaluated in one
conditional update, the event exists AND the participant is not already in
attendees AND the attendee count is below capacity; on success it appends
the participant and returns the updated attendee count together with the
full updated event projection. -/
theorem rsvp_join_spec (db : Option Event) (u : String) :
    ((rsvp db u).2.isSuccess = true ↔
      ∃ ev, db = some ev ∧ u ∉ ev.attendees ∧
        ev.attendees.length < ev.capacity) ∧
    (∀ ev, db = some ev → u ∉ ev.attendees →
      ev.attendees.length < ev.capacity →
      rsvp db u =
        (some { ev with attendees := ev.attendees ++ [u] },
         JoinResult.success (ev.attendees.length + 1)
           { ev with attendees := ev.attendees ++ [u] })) := by
  constructor
  · cases db with
    | none => simp [rsvp, JoinResult.isSuccess]
    | some ev =>
        by_cases hm : u ∈ ev.attendees
        · simp [rsvp_some_of_mem ev u hm, JoinResult.isSuccess, hm]
        · by_cases hc : ev.attendees.length < ev.capacity
          · simp [rsvp_some_of_ok ev u hm hc, JoinResult.isSuccess, hm, hc]
          · simp [rsvp_some_of_full ev u hm (Nat.le_of_not_lt hc),
              JoinResult.isSuccess, hm, hc]
  · rintro ev rfl hm hc
    exact rsvp_some_of_ok ev u hm hc

/-- Concrete event used by the witnesses: capacity 2, no attendees yet. -/
def evW1 : Event :=
  { title := "t", description := "d", dateTime := "2026-01-01",
    location := "l", category := "General", capacity := 2,
    attendees := [], createdBy := "creator" }

/-- Witness for C1 at a concrete event and participant. -/
theorem rsvp_join_spec_witness :
    rsvp (some evW1) "p" =
      (some { evW1 with attendees := evW1.attendees ++ ["p"] },
       JoinResult.success (evW1.attendees.length + 1)
         { evW1 with attendees := evW1.attendees ++ ["p"] }) :=
  (rsvp_join_spec (some evW1) "p").2 evW1 rfl (by decide) (by decide)

/-- C4: Leave is idempotent: a second Leave does not change the record;
for an existing event Leave never fails, the participant is absent from the
result, and when the participant was already absent the record is unchanged. -/
theorem unrsvp_idempotent (db : Option Event) (u : String) :
    (unrsvp (unrsvp db u).1 u).1 = (unrsvp db u).1 ∧
    (∀ ev, db = some ev →
      (unrsvp db u).2 =
        LeaveResult.success (pull ev.attendees u).length
          { ev with attendees := pull ev.attendees u } ∧
      u ∉ ((unrsvp db u).1.getD ev).attendees ∧
      (u ∉ ev.attendees → (unrsvp db u).1 = db)) := by
  constructor
  · cases db with
    | none => simp [unrsvp]
    | some ev => simp [unrsvp, pull_pull]
  · rintro ev rfl
    refine ⟨rfl, ?_, ?_⟩
    · simpa [unrsvp] using not_mem_pull ev.attendees u
    · intro hm
      simp [unrsvp, pull_of_not_mem ev.attendees u hm]

/-- Witness for C4 at a concrete event and participant. -/
theorem unrsvp_idempotent_witness :
    (unrsvp (unrsvp (some evW1) "p").1 "p").1 = (unrsvp (some evW1) "p").1 ∧
    (unrsvp (some evW1) "p").2 =
      LeaveResult.success (pull evW1.attendees "p").length
        { evW1 with attendees := pull evW1.attendees "p" } ∧
    "p" ∉ (((unrsvp (some evW1) "p").1).getD evW1).attendees ∧
    (unrsvp (some evW1) "p").1 = some evW1 :=
  have h := unrsvp_idempotent (some evW1) "p"
  ⟨h.1, (h.2 evW1 rfl).1, (h.2 evW1 rfl).2.1, (h.2 evW1 rfl).2.2 (by decide)⟩

/-- C5: a successful Join immediately followed by a Leave of the same
participant restores the attendee set exactly to its pre-Join state. -/
theorem join_leave_round_trip (ev : Event) (u : String)
    (h : (rsvp (some ev) u).2.isSuccess = true) :
    ((unrsvp (rsvp (some ev) u).1 u).1).map Event.attendees =
      some ev.attendees := by
  by_cases hm : u ∈ ev.attendees
  · rw [rsvp_some_of_mem ev u hm] at h
    simp [JoinResult.isSuccess] at h
  · by_cases hc : ev.attendees.length < ev.capacity
    · rw [rsvp_some_of_ok ev u hm hc]
      simp [unrsvp, pull_append_singleton, pull_of_not_mem ev.attendees u hm]
    · rw [rsvp_some_of_full ev u hm (Nat.le_of_not_lt hc)] at h
      simp [JoinResult.isSuccess] at h

/-- Witness for C5 at a concrete event and participant. -/
theorem join_leave_round_trip_witness :
    ((unrsvp (rsvp (some evW1) "p").1 "p").1).map Event.attendees =
      some evW1.attendees :=
  join_leave_round_trip evW1 "p" (by decide)

/-- C6: when the atomic Join attempt fails, the diagnostic read classifies
the failure as exactly one of NotFound, AlreadyJoined, Full or Conflict,
each with its own stable message; the classification never turns a failed
attempt into a success. -/
theorem rsvp_failure_classification (db : Option Event) (u : String)
    (h : (rsvp db u).2.isSuccess = false) :
    (∃ r, (rsvp db u).2 = JoinResult.failure r (joinMessage r) ∧
      (r = JoinReason.NotFound ↔ db = none) ∧
      (r = JoinReason.AlreadyJoined ↔
        ∃ ev, db = some ev ∧ u ∈ ev.attendees) ∧
      (r = JoinReason.Full ↔
        ∃ ev, db = some ev ∧ u ∉ ev.attendees ∧
          ev.capacity ≤ ev.attendees.length) ∧
      (r = JoinReason.Conflict ↔
        ∃ ev, db = some ev ∧ u ∉ ev.attendees ∧
          ev.attendees.length < ev.capacity)) ∧
    Function.Injective joinMessage := by
  refine ⟨?_, by decide⟩
  cases db with
  | none =>
      exact ⟨JoinReason.NotFound, rfl, by simp, by simp, by simp, by simp⟩
  | some ev =>
      by_cases hm : u ∈ ev.attendees
      · refine ⟨JoinReason.AlreadyJoined, ?_, by simp, by simp [hm],
          by simp [hm], by simp [hm]⟩
        rw [rsvp_some_of_mem ev u hm]; rfl
      · by_cases hc : ev.attendees.length < ev.capacity
        · rw [rsvp_some_of_ok ev u hm hc] at h
          simp [JoinResult.isSuccess] at h
        · have hge : ev.capacity ≤ ev.attendees.length := Nat.le_of_not_lt hc
          refine ⟨JoinReason.Full, ?_, by simp, by simp [hm],
            by simp [hm, hge], by simp [hm, Nat.not_lt.mpr hge]⟩
          rw [rsvp_some_of_full ev u hm hge]; rfl

/-- Witness for C6 at the concrete input of a missing event. -/
theorem rsvp_failure_classification_witness :
    (∃ r, (rsvp (none : Option Event) "p").2 =
        JoinResult.failure r (joinMessage r) ∧
      (r = JoinReason.NotFound ↔ (none : Option Event) = none) ∧
      (r = JoinReason.AlreadyJoined ↔
        ∃ ev, (none : Option Event) = some ev ∧ "p" ∈ ev.attendees) ∧
      (r = JoinReason.Full ↔
        ∃ ev, (none : Option Event) = some ev ∧ "p" ∉ ev.attendees ∧
          ev.capacity ≤ ev.attendees.length) ∧
      (r = JoinReason.Conflict ↔
        ∃ ev, (none : Option Event) = some ev ∧ "p" ∉ ev.attendees ∧
          ev.attendees.length < ev.capacity)) ∧
    Function.Injective joinMessage :=
  rsvp_failure_classification none "p" (by decide)

/-- C7: Leave reports NotFound iff the event does not exist; for every
existing event it succeeds and returns the updated event projection,
whether or not the participant was a member. -/
theorem unrsvp_notFound_iff (db : Option Event) (u : String) :
    ((unrsvp db u).2 = LeaveResult.notFound "Event not found" ↔ db = none) ∧
    (∀ ev, db = some ev →
      unrsvp db u =
        (some { ev with attendees := pull ev.attendees u },
         LeaveResult.success (pull ev.attendees u).length
           { ev with attendees := pull ev.attendees u })) := by
  constructor
  · cases db with
    | none => simp [unrsvp]
    | some ev => simp [unrsvp]
  · rintro ev rfl
    rfl

/-- Witness for C7 at a concrete existing event. -/
theorem unrsvp_notFound_iff_witness :
    unrsvp (some evW1) "p" =
      (some { evW1 with attendees := pull evW1.attendees "p" },
       LeaveResult.success (pull evW1.attendees "p").length
         { evW1 with attendees := pull evW1.attendees "p" }) :=
  (unrsvp_notFound_iff (some evW1) "p").2 evW1 rfl

/-- C8: only the creator may update or delete an event: a caller whose
identifier differs from the creator identifier gets an authorization error
and the stored event is unchanged, for both routes. -/
theorem creator_only_update_delete (ev : Event) (caller : String)
    (b : UpdateBody) (h : caller ≠ ev.createdBy) :
    updateEvent (some ev) caller b =
      (some ev, UpdateResult.notAuthorized "Not authorized to edit this event") ∧
    deleteEvent (some ev) caller =
      (some ev,
       DeleteResult.notAuthorized "Not authorized to delete this event") := by
  have h' : ¬ ev.createdBy = caller := fun e => h e.symm
  constructor
  · simp [updateEvent, h']
  · simp [deleteEvent, h']

/-- Witness for C8 at a concrete event and a non-creator caller. -/
theorem creator_only_update_delete_witness :
    updateEvent (some evW1) "intruder" {} =
      (some evW1,
       UpdateResult.notAuthorized "Not authorized to edit this event") ∧
    deleteEvent (some evW1) "intruder" =
      (some evW1,
       DeleteResult.notAuthorized "Not authorized to delete this event") :=
  creator_only_update_delete evW1 "intruder" {} (by decide)

/-- C10: the failure diagnostic applies its checks in a fixed priority
order: existence, then membership, then capacity.  A missing event always
reports NotFound; a participant already a member of an event that is also
at capacity receives AlreadyJoined rather than Full; Full is reported
whenever the event exists, the participant is not a member and the
attendee count has reached capacity. -/
theorem rsvp_diagnostic_priority (db : Option Event) (u : String) :
    (db = none →
      (rsvp db u).2 = JoinResult.failure JoinReason.NotFound
        "Event not found") ∧
    (∀ ev, db = some ev → u ∈ ev.attendees →
      ev.capacity ≤ ev.attendees.length →
      (rsvp db u).2 = JoinResult.failure JoinReason.AlreadyJoined
        "You have already RSVPed to this event") ∧
    (∀ ev, db = some ev → u ∉ ev.attendees →
      ev.capacity ≤ ev.attendees.length →
      (rsvp db u).2 = JoinResult.failure JoinReason.Full
        "Event is already full") := by
  refine ⟨?_, ?_, ?_⟩
  · rintro rfl; rfl
  · rintro ev rfl hm _
    rw [rsvp_some_of_mem ev u hm]
  · rintro ev rfl hm hc
    rw [rsvp_some_of_full ev u hm hc]

/-- Concrete event at capacity with one attendee, for the C10 witness. -/
def evFullW : Event :=
  { title := "t", description := "d", dateTime := "2026-01-01",
    location := "l", category := "General", capacity := 1,
    attendees := ["p"], createdBy := "creator" }

/-- Witness for C10: a member of a full event gets AlreadyJoined, a
non-member gets Full. -/
theorem rsvp_diagnostic_priority_witness :
    (rsvp (some evFullW) "p").2 = JoinResult.failure JoinReason.AlreadyJoined
      "You have already RSVPed to this event" ∧
    (rsvp (some evFullW) "q").2 = JoinResult.failure JoinReason.Full
      "Event is already full" :=
  ⟨(rsvp_diagnostic_priority (some evFullW) "p").2.1 evFullW rfl
      (by decide) (by decide),
   (rsvp_diagnostic_priority (some evFullW) "q").2.2 evFullW rfl
      (by decide) (by decide)⟩

/-- C9: capacity is at least 1 at creation; a creator's capacity update is
accepted exactly when the new value is at least 1 and not below the current
attendee count, and a violating request is rejected with the stored event
left unchanged. -/
theorem capacity_bounds (userId t d dt loc : String) (c : Int) (ev : Event)
    (b : UpdateBody) (hcap : b.capacity = some c) :
    (∀ e, createEvent userId t d dt loc (some c) = CreateResult.created e →
      1 ≤ e.capacity) ∧
    (1 ≤ c → (ev.attendees.length : Int) ≤ c →
      updateEvent (some ev) ev.createdBy b =
        (some { applyFields ev b with capacity := c.toNat },
         UpdateResult.ok { applyFields ev b with capacity := c.toNat })) ∧
    (¬(1 ≤ c ∧ (ev.attendees.length : Int) ≤ c) →
      ∃ msg, updateEvent (some ev) ev.createdBy b =
        (some ev, UpdateResult.badRequest msg)) := by
  refine ⟨?_, ?_, ?_⟩
  · intro e he
    simp only [createEvent] at he
    split at he
    · cases he
    · split at he
      · cases he
      · rename_i hlt
        cases he
        show 1 ≤ c.toNat
        omega
  · intro h1 h2
    have hn1 : ¬ c < 1 := by omega
    have hn2 : ¬ c < (ev.attendees.length : Int) := by omega
    simp [updateEvent, hcap, hn1, hn2]
  · intro h
    by_cases hc1 : c < 1
    · exact ⟨"Capacity must be a positive number",
        by simp [updateEvent, hcap, hc1]⟩
    · have hc2 : c < (ev.attendees.length : Int) := by omega
      exact ⟨"Capacity cannot be less than current attendee count",
        by simp [updateEvent, hcap, hc1, hc2]⟩

/-- The event the create route builds for the C9 witness input. -/
def evCreatedW : Event :=
  { title := "t", description := "d", dateTime := "dt", location := "l",
    category := "General", capacity := 5, attendees := [],
    createdBy := "creator" }

/-- Witness for C9: creating with capacity 5 yields capacity at least 1,
and the creator raising the capacity of a full event from 1 to 5 is
accepted. -/
theorem capacity_bounds_witness :
    1 ≤ evCreatedW.capacity ∧
    updateEvent (some evFullW) evFullW.createdBy { capacity := some 5 } =
      (some { applyFields evFullW { capacity := some 5 } with
                capacity := (5 : Int).toNat },
       UpdateResult.ok { applyFields evFullW { capacity := some 5 } with
                capacity := (5 : Int).toNat }) :=
  have h := capacity_bounds "creator" "t" "d" "dt" "l" 5 evFullW
    { capacity := some 5 } rfl
  ⟨h.1 evCreatedW (by decide), h.2.1 (by decide) (by decide)⟩

/-! ### Capacity invariant over sequences of Join requests -/

theorem joinTrace_cons_mem (ev : Event) (u : String) (us : List String)
    (hm : u ∈ ev.attendees) :
    joinTrace ev (u :: us) =
      ((u, JoinResult.failure JoinReason.AlreadyJoined
          "You have already RSVPed to this event") :: (joinTrace ev us).1,
       (joinTrace ev us).2) := by
  simp [joinTrace, rsvp_some_of_mem ev u hm]

theorem joinTrace_cons_full (ev : Event) (u : String) (us : List String)
    (hm : u ∉ ev.attendees) (hc : ev.capacity ≤ ev.attendees.length) :
    joinTrace ev (u :: us) =
      ((u, JoinResult.failure JoinReason.Full "Event is already full") ::
          (joinTrace ev us).1,
       (joinTrace ev us).2) := by
  simp [joinTrace, rsvp_some_of_full ev u hm hc]

theorem joinTrace_cons_ok (ev : Event) (u : String) (us : List String)
    (hm : u ∉ ev.attendees) (hc : ev.attendees.length < ev.capacity) :
    joinTrace ev (u :: us) =
      ((u, JoinResult.success (ev.attendees.length + 1)
          { ev with attendees := ev.attendees ++ [u] }) ::
          (joinTrace { ev with attendees := ev.attendees ++ [u] } us).1,
       (joinTrace { ev with attendees := ev.attendees ++ [u] } us).2) := by
  simp [joinTrace, rsvp_some_of_ok ev u hm hc]

theorem successCount_cons (e : String × JoinResult)
    (tr : List (String × JoinResult)) :
    successCount (e :: tr) =
      (if e.2.isSuccess then 1 else 0) + successCount tr := by
  by_cases h : e.2.isSuccess <;>
    simp [successCount, List.filter_cons, h, Nat.add_comm]

/-- The capacity field is never touched by Join requests. -/
theorem joinTrace_capacity (ev : Event) (rs : List String) :
    (joinTrace ev rs).2.capacity = ev.capacity := by
  induction rs generalizing ev with
  | nil => rfl
  | cons u us ih =>
      by_cases hm : u ∈ ev.attendees
      · rw [joinTrace_cons_mem ev u us hm]; exact ih ev
      · by_cases hc : ev.attendees.length < ev.capacity
        · rw [joinTrace_cons_ok ev u us hm hc]
          simpa using ih { ev with attendees := ev.attendees ++ [u] }
        · rw [joinTrace_cons_full ev u us hm (Nat.le_of_not_lt hc)]
          exact ih ev

/-- The attendee count stays within capacity through any sequence of Join
requests. -/
theorem joinTrace_length_le (ev : Event) (rs : List String)
    (h : ev.attendees.length ≤ ev.capacity) :
    (joinTrace ev rs).2.attendees.length ≤ ev.capacity := by
  induction rs generalizing ev with
  | nil => exact h
  | cons u us ih =>
      by_cases hm : u ∈ ev.attendees
      · rw [joinTrace_cons_mem ev u us hm]; exact ih ev h
      · by_cases hc : ev.attendees.length < ev.capacity
        · rw [joinTrace_cons_ok ev u us hm hc]
          have h1 : ({ ev with attendees := ev.attendees ++ [u] } :
              Event).attendees.length ≤
              ({ ev with attendees := ev.attendees ++ [u] } : Event).capacity := by
            simp; omega
          simpa using ih { ev with attendees := ev.attendees ++ [u] } h1
        · rw [joinTrace_cons_full ev u us hm (Nat.le_of_not_lt hc)]
          exact ih ev h

/-- Once the event is at (or above) capacity, every further Join request
fails and the record is unchanged. -/
theorem joinTrace_of_full (ev : Event) (rs : List String)
    (h : ev.capacity ≤ ev.attendees.length) :
    successCount (joinTrace ev rs).1 = 0 ∧ (joinTrace ev rs).2 = ev := by
  induction rs generalizing ev with
  | nil => exact ⟨rfl, rfl⟩
  | cons u us ih =>
      by_cases hm : u ∈ ev.attendees
      · rw [joinTrace_cons_mem ev u us hm]
        refine ⟨?_, (ih ev h).2⟩
        rw [successCount_cons]
        simpa [JoinResult.isSuccess] using (ih ev h).1
      · rw [joinTrace_cons_full ev u us hm h]
        refine ⟨?_, (ih ev h).2⟩
        rw [successCount_cons]
        simpa [JoinResult.isSuccess] using (ih ev h).1

theorem toFinset_append_singleton (l : List String) (u : String) :
    (l ++ [u]).toFinset = insert u l.toFinset := by
  ext a
  simp [or_comm]

theorem card_insert_sdiff (u : String) (S A : Finset String) (h : u ∉ A) :
    (insert u S \ A).card = (S \ insert u A).card + 1 := by
  rw [Finset.insert_sdiff_of_not_mem S h, Finset.sdiff_insert]
  by_cases hu : u ∈ S \ A
  · rw [Finset.insert_eq_self.mpr hu]
    exact (Finset.card_erase_add_one hu).symm
  · rw [Finset.card_insert_of_not_mem hu, Finset.erase_eq_of_not_mem hu]

/-- Exact success count of a sequence of Join requests: the number of
distinct not-yet-member requesters, capped by the remaining headroom. -/
theorem successCount_joinTrace (ev : Event) (rs : List String)
    (h : ev.attendees.length ≤ ev.capacity) :
    successCount (joinTrace ev rs).1 =
      min ((rs.toFinset \ ev.attendees.toFinset).card)
        (ev.capacity - ev.attendees.length) := by
  induction rs generalizing ev with
  | nil => simp [joinTrace, successCount]
  | cons u us ih =>
      by_cases hm : u ∈ ev.attendees
      · rw [joinTrace_cons_mem ev u us hm, successCount_cons]
        have hins : (u :: us).toFinset \ ev.attendees.toFinset =
            us.toFinset \ ev.attendees.toFinset := by
          rw [List.toFinset_cons]
          exact Finset.insert_sdiff_of_mem _ (List.mem_toFinset.mpr hm)
        rw [hins, ih ev h]
        simp [JoinResult.isSuccess]
      · by_cases hc : ev.attendees.length < ev.capacity
        · rw [joinTrace_cons_ok ev u us hm hc, successCount_cons]
          have h1 : ({ ev with attendees := ev.attendees ++ [u] } :
              Event).attendees.length ≤
              ({ ev with attendees := ev.attendees ++ [u] } : Event).capacity := by
            simp; omega
          have ih' := ih { ev with attendees := ev.attendees ++ [u] } h1
          simp only [toFinset_append_singleton] at ih'
          have hcard : ((u :: us).toFinset \ ev.attendees.toFinset).card =
              (us.toFinset \ insert u ev.attendees.toFinset).card + 1 := by
            rw [List.toFinset_cons]
            exact card_insert_sdiff u us.toFinset ev.attendees.toFinset
              (fun hin => hm (List.mem_toFinset.mp hin))
          rw [hcard]
          simp only [JoinResult.isSuccess, if_true]
          simp only [List.length_append, List.length_cons,
            List.length_nil] at ih' ⊢
          rw [ih']
          omega
        · have hge : ev.capacity ≤ ev.attendees.length := Nat.le_of_not_lt hc
          rw [joinTrace_cons_full ev u us hm hge, successCount_cons]
          have h0 := (joinTrace_of_full ev us hge).1
          rw [h0]
          have hcm : ev.capacity - ev.attendees.length = 0 := by omega
          simp [JoinResult.isSuccess, hcm]

/-- C2: for an event of capacity C holding M attendees (M within capacity),
a sequence of Join requests reports success exactly
min(distinct not-yet-member requesters, C - M) times, and the attendee
count stays within C after every step of the sequence. -/
theorem rsvp_capacity_invariant (ev : Event) (rs : List String)
    (h : ev.attendees.length ≤ ev.capacity) :
    successCount (joinTrace ev rs).1 =
      min ((rs.toFinset \ ev.attendees.toFinset).card)
        (ev.capacity - ev.attendees.length) ∧
    (∀ pre, pre <+: rs →
      (joinTrace ev pre).2.attendees.length ≤ ev.capacity) :=
  ⟨successCount_joinTrace ev rs h,
   fun pre _ => joinTrace_length_le ev pre h⟩

/-- Witness for C2: four requests by three distinct newcomers against a
fresh event of capacity 2 yield exactly min(3, 2) successes. -/
theorem rsvp_capacity_invariant_witness :
    successCount (joinTrace evW1 ["a", "b", "a", "c"]).1 =
      min (((["a", "b", "a", "c"] : List String).toFinset \
          evW1.attendees.toFinset).card)
        (evW1.capacity - evW1.attendees.length) ∧
    (∀ pre, pre <+: (["a", "b", "a", "c"] : List String) →
      (joinTrace evW1 pre).2.attendees.length ≤ evW1.capacity) :=
  rsvp_capacity_invariant evW1 ["a", "b", "a", "c"] (by decide)

/-! ### Duplicate membership -/

/-- One request never introduces a duplicate into the attendee list. -/
theorem applyOp_nodup (ev : Event) (o : Op) (h : ev.attendees.Nodup) :
    (applyOp ev o).1.attendees.Nodup := by
  cases o with
  | join u =>
      by_cases hm : u ∈ ev.attendees
      · simpa [applyOp, rsvp_some_of_mem ev u hm] using h
      · by_cases hc : ev.attendees.length < ev.capacity
        · simp only [applyOp, rsvp_some_of_ok ev u hm hc, Option.getD_some]
          simp [List.nodup_append, h, hm]
        · simpa [applyOp, rsvp_some_of_full ev u hm (Nat.le_of_not_lt hc)]
            using h
  | leave u =>
      simp only [applyOp, unrsvp, Option.getD_some]
      exact h.filter _

/-- No request sequence ever produces a duplicate attendee. -/
theorem opsTrace_nodup (ev : Event) (ops : List Op) (h : ev.attendees.Nodup) :
    (opsTrace ev ops).2.attendees.Nodup := by
  induction ops generalizing ev with
  | nil => exact h
  | cons o os ih =>
      simp only [opsTrace]
      exact ih _ (applyOp_nodup ev o h)

/-- Membership is preserved by any further Join request. -/
theorem mem_attendees_rsvp_mono (ev : Event) (u p : String)
    (h : p ∈ ev.attendees) :
    p ∈ (((rsvp (some ev) u).1).getD ev).attendees := by
  by_cases hm : u ∈ ev.attendees
  · simpa [rsvp_some_of_mem ev u hm] using h
  · by_cases hc : ev.attendees.length < ev.capacity
    · simp only [rsvp_some_of_ok ev u hm hc, Option.getD_some]
      exact List.mem_append_left _ h
    · simpa [rsvp_some_of_full ev u hm (Nat.le_of_not_lt hc)] using h

/-- Every Join request by a current member is answered AlreadyJoined, all
through the rest of the sequence. -/
theorem joinTrace_mem_alreadyJoined (ev : Event) (p : String)
    (us : List String) (h : p ∈ ev.attendees) :
    ∀ r, (p, r) ∈ (joinTrace ev us).1 →
      r = JoinResult.failure JoinReason.AlreadyJoined
        "You have already RSVPed to this event" := by
  induction us generalizing ev with
  | nil =>
      intro r hr
      simp [joinTrace] at hr
  | cons u us ih =>
      intro r hr
      simp only [joinTrace, List.mem_cons] at hr
      rcases hr with hr | hr
      · have hp : p = u := congrArg Prod.fst hr
        have hrr : r = (rsvp (some ev) u).2 := congrArg Prod.snd hr
        subst hp
        rw [rsvp_some_of_mem ev p h] at hrr
        exact hrr
      · exact ih _ (mem_attendees_rsvp_mono ev u p h) r hr

/-- After a successful Join by a participant, every later Join request by
the same participant in the sequence is answered AlreadyJoined. -/
theorem joinTrace_after_success (ev : Event) (p : String) (us : List String) :
    ∀ t1 r t2, (joinTrace ev us).1 = t1 ++ (p, r) :: t2 →
      r.isSuccess = true →
      ∀ r2, (p, r2) ∈ t2 →
        r2 = JoinResult.failure JoinReason.AlreadyJoined
          "You have already RSVPed to this event" := by
  induction us generalizing ev with
  | nil =>
      intro t1 r t2 heq hs r2 hr2
      exact absurd (List.append_eq_nil.mp heq.symm).2 (List.cons_ne_nil _ _)
  | cons u us ih =>
      intro t1 r t2 heq hs r2 hr2
      cases t1 with
      | nil =>
          simp only [joinTrace, List.nil_append, List.cons.injEq] at heq
          obtain ⟨hhead, htail⟩ := heq
          have hp : u = p := congrArg Prod.fst hhead
          have hrr : (rsvp (some ev) u).2 = r := congrArg Prod.snd hhead
          subst hp
          by_cases hm : u ∈ ev.attendees
          · rw [rsvp_some_of_mem ev u hm] at hrr
            rw [← hrr] at hs
            simp [JoinResult.isSuccess] at hs
          · by_cases hc : ev.attendees.length < ev.capacity
            · have hmem : u ∈ ({ ev with
                  attendees := ev.attendees ++ [u] } : Event).attendees := by
                simp
              have htail' : (u, r2) ∈
                  (joinTrace { ev with attendees := ev.attendees ++ [u] }
                    us).1 := by
                rw [rsvp_some_of_ok ev u hm hc] at htail
                simp only [Option.getD_some] at htail
                exact htail ▸ hr2
              exact joinTrace_mem_alreadyJoined _ u us hmem r2 htail'
            · rw [rsvp_some_of_full ev u hm (Nat.le_of_not_lt hc)] at hrr
              rw [← hrr] at hs
              simp [JoinResult.isSuccess] at hs
      | cons e t1' =>
          simp only [joinTrace, List.cons_append, List.cons.injEq] at heq
          exact ih _ t1' r t2 heq.2 hs r2 hr2

/-- Counterexample to C3 as stated over arbitrary operation sequences: in
the sequence Join p, Leave p, Join p against a fresh event, the second Join
by p (which comes after an earlier Join by p) reports success again, not
AlreadyJoined. -/
theorem rsvp_repeat_join_counterexample :
    (opsTrace evW1 [Op.join "p", Op.leave "p", Op.join "p"]).1 =
      [OpResult.joined (JoinResult.success 1
          { evW1 with attendees := ["p"] }),
       OpResult.left (LeaveResult.success 0 evW1),
       OpResult.joined (JoinResult.success 1
          { evW1 with attendees := ["p"] })] ∧
    OpResult.joined (JoinResult.success 1 { evW1 with attendees := ["p"] }) ≠
      OpResult.joined (JoinResult.failure JoinReason.AlreadyJoined
        "You have already RSVPed to this event") := by
  constructor
  · decide
  · decide

/-- C3 (amended): through any sequence of Join and Leave requests a
participant appears at most once in attendees; and in a sequence of Join
requests (no intervening Leave), after a successful Join by a participant
every later Join by the same participant reports AlreadyJoined. -/
theorem rsvp_no_duplicate_membership (ev : Event) (p : String)
    (h : ev.attendees.Nodup) :
    (∀ ops : List Op, (opsTrace ev ops).2.attendees.count p ≤ 1) ∧
    (∀ us : List String, ∀ t1 r t2,
      (joinTrace ev us).1 = t1 ++ (p, r) :: t2 → r.isSuccess = true →
      ∀ r2, (p, r2) ∈ t2 →
        r2 = JoinResult.failure JoinReason.AlreadyJoined
          "You have already RSVPed to this event") :=
  ⟨fun ops => List.nodup_iff_count_le_one.mp (opsTrace_nodup ev ops h) p,
   fun us => joinTrace_after_success ev p us⟩

/-- Witness for the amended C3 at a concrete event and participant. -/
theorem rsvp_no_duplicate_membership_witness :
    (∀ ops : List Op, (opsTrace evW1 ops).2.attendees.count "p" ≤ 1) ∧
    (∀ us : List String, ∀ t1 r t2,
      (joinTrace evW1 us).1 = t1 ++ ("p", r) :: t2 → r.isSuccess = true →
      ∀ r2, ("p", r2) ∈ t2 →
        r2 = JoinResult.failure JoinReason.AlreadyJoined
          "You have already RSVPed to this event") :=
  rsvp_no_duplicate_membership evW1 "p" (by decide)
